import Mathlib

/-!
Shallow embedding of the Image-Editor single-page application
(src/App.tsx together with the bundled services/geminiService module).

Strings are modelled as `List Char`.  JavaScript-specific behaviour is
embedded explicitly:

* `jsSplit` is `String.prototype.split` on a one-character separator
  (keeps empty segments, returns `[[]]` on the empty string);
* `matchColonSemi` is the regex match `/:(.*?);/` applied to a string,
  returning the capture group of the leftmost match (the text between the
  first `:` that is followed by some `;`, and the first `;` after it);
* the `||` fallback for falsy values treats the empty string (and
  `undefined`, modelled by `Option.none`) as falsy.

The two React state setters of a component are modelled by a state
transformer on an `AppState` record; the external Gemini API call is an
oracle `EditRequest → ApiResult` and each handler also returns the number
of network calls it issued.
-/

namespace ImageEditor

/-- JavaScript `String.prototype.split(sep)` for a single-character
separator: splits at every occurrence, keeping empty segments
(`"".split(',') = [""]`, `"a,,b".split(',') = ["a","","b"]`). -/
def jsSplit (sep : Char) : List Char → List (List Char)
  | [] => [[]]
  | c :: rest =>
    if c = sep then
      [] :: jsSplit sep rest
    else
      match jsSplit sep rest with
      | [] => [[c]]
      | seg :: segs => (c :: seg) :: segs

/-- Characters of a list strictly before its first `';'`; `none` when no
`';'` occurs. -/
def upToSemi : List Char → Option (List Char)
  | [] => none
  | c :: rest =>
    if c = ';' then some []
    else (upToSemi rest).map (fun g => c :: g)

/-- The capture group of the JavaScript regex match `/:(.*?);/`: the text
between the leftmost `':'` that is followed (somewhere) by a `';'` and the
first `';'` after that `':'`; `none` when the regex does not match. -/
def matchColonSemi : List Char → Option (List Char)
  | [] => none
  | c :: rest =>
    if c = ':' then
      match upToSemi rest with
      | some g => some g
      | none => matchColonSemi rest
    else matchColonSemi rest

/-- The default MIME type `application/octet-stream`. -/
def octetStream : List Char := "application/octet-stream".data

/-- Result record of `fileToData`.  `base64` is `none` when the encoded
string contains no comma, in which case the JavaScript destructuring
`const [header, data] = result.split(',')` leaves `data` undefined. -/
structure FileData where
  base64 : Option (List Char)
  mimeType : List Char
  dataUrl : List Char
deriving DecidableEq, Repr

/-- The MIME type `fileToData` derives from the header segment:
`header.match(/:(.*?);/)?.[1] || 'application/octet-stream'` — the
fallback fires when the match fails (`undefined`) or captures the empty
string, both falsy under `||`. -/
def fileMime (header : List Char) : List Char :=
  match matchColonSemi header with
  | some g => if g = [] then octetStream else g
  | none => octetStream

/-- `fileToData` (src/App.tsx lines 6–18), applied to the string the
`FileReader` produced (`reader.result`): splits at commas, takes the first
segment as header and the second as payload, extracts the MIME type from
the header via `fileMime`, and returns the whole encoded string as
`dataUrl`. -/
def fileToData (result : List Char) : FileData :=
  ⟨(jsSplit ',' result)[1]?,
   fileMime ((jsSplit ',' result).headD []),
   result⟩

/-- An inline-data part of a Gemini response: raw bytes as base64 text
plus a declared MIME type. -/
structure InlineData where
  data : List Char
  mimeType : List Char
deriving DecidableEq, Repr

/-- One content part of a Gemini response candidate: it may carry inline
image data, text, both, or neither (`none` models an absent field). -/
structure Part where
  inlineData : Option InlineData := none
  text : Option (List Char) := none
deriving DecidableEq, Repr

/-- The `content` field of a candidate; `parts` may be absent. -/
structure Content where
  parts : Option (List Part) := none
deriving DecidableEq, Repr

/-- One response candidate; `content` may be absent. -/
structure Candidate where
  content : Option Content := none
deriving DecidableEq, Repr

/-- A Gemini API response; `candidates` may be absent. -/
structure Response where
  candidates : Option (List Candidate) := none
deriving DecidableEq, Repr

/-- The parts list the service iterates over:
`response.candidates?.[0]?.content?.parts || []` — optional chaining
yields `[]` whenever any link of the chain is absent. -/
def responseParts (r : Response) : List Part :=
  match r.candidates with
  | none => []
  | some cs =>
    match cs.head? with
    | none => []
    | some cand =>
      match cand.content with
      | none => []
      | some ct => ct.parts.getD []

/-- The service's `for` loop over the parts: the first part whose
`inlineData` field is present, in parts-list order. -/
def extractFirstInline : List Part → Option InlineData
  | [] => none
  | p :: rest =>
    match p.inlineData with
    | some d => some d
    | none => extractFirstInline rest

/-- One part of the outgoing request.  `inlineData` carries the base64
payload as an `Option` because the JavaScript caller can pass `undefined`
(when the encoded file string had no comma). -/
inductive ReqPart where
  | inlineData (data : Option (List Char)) (mimeType : List Char)
  | text (t : List Char)
deriving DecidableEq, Repr

/-- The request `editImageWithPrompt` sends: the fixed model name, the two
ordered parts (inline image data, then the prompt text), and the
image-only response-modality configuration. -/
structure EditRequest where
  model : List Char
  parts : List ReqPart
  responseModalities : List (List Char)
deriving DecidableEq, Repr

/-- Builds the request of `ai.models.generateContent` exactly as the
service does: model `gemini-2.5-flash-image`, parts
`[inlineData(base64, mimeType), text(prompt)]`, modality `IMAGE`. -/
def buildRequest (base64ImageData : Option (List Char)) (mimeType prompt : List Char) :
    EditRequest :=
  ⟨"gemini-2.5-flash-image".data,
   [ReqPart.inlineData base64ImageData mimeType, ReqPart.text prompt],
   ["IMAGE".data]⟩

/-- Outcome of the network call: a parsed response, or a transport/API
failure carrying the provider's raw error text. -/
inductive ApiResult where
  | ok (r : Response)
  | err (providerError : List Char)
deriving DecidableEq, Repr

/-- Error message thrown inside the `try` block when no part carries
inline data: `"No image data was found in the API response."` -/
def noImageMsg : List Char := "No image data was found in the API response.".data

/-- The generic message of the `catch` block:
`"Failed to generate the image due to an API error. Please check the console and try again."` -/
def genericFailMsg : List Char :=
  "Failed to generate the image due to an API error. Please check the console and try again.".data

/-- The data URI the service returns for an inline part:
`data:<mimeType>;base64,<data>`. -/
def mkDataUri (d : InlineData) : List Char :=
  "data:".data ++ d.mimeType ++ ";base64,".data ++ d.data

/-- The body of the service's `try` block after the response arrived: scan
the parts for inline data and return its data URI, otherwise throw the
`noImageMsg` error. -/
def tryBody (r : Response) : Except (List Char) (List Char) :=
  match extractFirstInline (responseParts r) with
  | some d => Except.ok (mkDataUri d)
  | none => Except.error noImageMsg

/-- The whole `try`/`catch` of the service given the call's outcome: any
exception inside the `try` — the failed call itself or the `noImageMsg`
throw — is caught and replaced by the generic `genericFailMsg` error. -/
def processApi : ApiResult → Except (List Char) (List Char)
  | ApiResult.err _ => Except.error genericFailMsg
  | ApiResult.ok r =>
    match tryBody r with
    | Except.ok v => Except.ok v
    | Except.error _ => Except.error genericFailMsg

/-- `editImageWithPrompt` (services/geminiService): builds the request,
issues exactly one network call through the oracle `api`, and maps the
outcome through the `try`/`catch`.  The second component counts the
network calls issued. -/
def editImageWithPrompt (base64ImageData : Option (List Char))
    (mimeType prompt : List Char) (api : EditRequest → ApiResult) :
    Except (List Char) (List Char) × Nat :=
  (processApi (api (buildRequest base64ImageData mimeType prompt)), 1)

/-- A selected file, modelled by what `FileReader.readAsDataURL` does with
it: `ok result` is the encoded string of a successful read, `error m` a
failed read whose error object has `message = m` (`none` when the
`message` property is undefined, as on a `ProgressEvent`). -/
structure File where
  read : Except (Option (List Char)) (List Char)
deriving Repr

/-- The React state of the `App` component. -/
structure AppState where
  uploadedImageFile : Option File
  uploadedImagePreview : Option (List Char)
  prompt : List Char
  generatedImage : Option (List Char)
  isLoading : Bool
  error : Option (List Char)
deriving Repr

/-- JavaScript `String.prototype.trim`: drop whitespace from both ends. -/
def jsTrim (s : List Char) : List Char :=
  ((s.dropWhile Char.isWhitespace).reverse.dropWhile Char.isWhitespace).reverse

/-- Validation message: `"Please upload an image and enter a prompt."` -/
def validationMsg : List Char := "Please upload an image and enter a prompt.".data

/-- Read-failure message of `handleFileChange`:
`"Could not read the selected file."` -/
def readFileErrMsg : List Char := "Could not read the selected file.".data

/-- Fallback of `err.message || 'An unknown error occurred.'`. -/
def unknownErrMsg : List Char := "An unknown error occurred.".data

/-- `err.message || 'An unknown error occurred.'`: undefined or empty
message (both falsy) fall back to the unknown-error message. -/
def catchMsg (m : Option (List Char)) : List Char :=
  match m with
  | none => unknownErrMsg
  | some t => if t = [] then unknownErrMsg else t

/-- `handleFileChange` (src/App.tsx lines 57–70) with the selected file of
the change event (`none` when no file was selected): stores the file, then
on a successful read stores the preview and clears the previous result and
error; on a failed read sets the read-failure message and touches nothing
else. -/
def handleFileChange (s : AppState) (file : Option File) : AppState :=
  match file with
  | none => s
  | some f =>
    let s1 : AppState := { s with uploadedImageFile := some f }
    match f.read with
    | Except.ok result =>
      { s1 with
        uploadedImagePreview := some (fileToData result).dataUrl,
        generatedImage := none,
        error := none }
    | Except.error _ =>
      { s1 with error := some readFileErrMsg }

/-- The state after the three dispatch setters of `handleGenerate`
(`setIsLoading(true); setError(null); setGeneratedImage(null)`), i.e. the
state visible throughout Loading. -/
def dispatchState (s : AppState) : AppState :=
  { s with isLoading := true, error := none, generatedImage := none }

/-- `handleGenerate` (src/App.tsx lines 72–92): rejects with the
validation message (and no network call) unless a file is present and the
trimmed prompt is non-empty; otherwise clears error and result, sets
loading, re-reads the file, calls the edit client, and stores the result
or the caught error's message, finally clearing the loading flag.  The
second component counts network calls issued. -/
def handleGenerate (s : AppState) (api : EditRequest → ApiResult) :
    AppState × Nat :=
  match s.uploadedImageFile with
  | none => ({ s with error := some validationMsg }, 0)
  | some file =>
    if jsTrim s.prompt = [] then
      ({ s with error := some validationMsg }, 0)
    else
      let s1 := dispatchState s
      match file.read with
      | Except.error m =>
        ({ s1 with isLoading := false, error := some (catchMsg m) }, 0)
      | Except.ok result =>
        let fd := fileToData result
        let out := editImageWithPrompt fd.base64 fd.mimeType s.prompt api
        match out.1 with
        | Except.ok uri =>
          ({ s1 with isLoading := false, generatedImage := some uri }, out.2)
        | Except.error msg =>
          ({ s1 with isLoading := false, error := some (catchMsg (some msg)) }, out.2)

/-! ## Helper lemmas -/

/-- `jsSplit` never produces an empty list of segments. -/
theorem jsSplit_ne_nil (sep : Char) (s : List Char) : jsSplit sep s ≠ [] := by
  cases s with
  | nil => simp [jsSplit]
  | cons c l =>
    by_cases hc : c = sep
    · simp [jsSplit, hc]
    · rcases h : jsSplit sep l with _ | ⟨seg, segs⟩ <;> simp [jsSplit, hc, h]

/-- A string without the separator splits into one segment. -/
theorem jsSplit_not_mem (sep : Char) :
    ∀ s : List Char, sep ∉ s → jsSplit sep s = [s] := by
  intro s
  induction s with
  | nil => intro _; rfl
  | cons c l ih =>
    intro h
    have hc : ¬ c = sep := by
      intro hh; subst hh; exact h (List.mem_cons_self c l)
    have hl : sep ∉ l := fun hh => h (List.mem_cons_of_mem c hh)
    simp [jsSplit, hc, ih hl]

/-- Splitting at the first separator occurrence peels off the
separator-free part before it. -/
theorem jsSplit_append (sep : Char) :
    ∀ pre rest : List Char, sep ∉ pre →
      jsSplit sep (pre ++ sep :: rest) = pre :: jsSplit sep rest := by
  intro pre
  induction pre with
  | nil => intro rest _; simp [jsSplit]
  | cons c p ih =>
    intro rest h
    have hc : ¬ c = sep := by
      intro hh; subst hh; exact h (List.mem_cons_self c p)
    have hp : sep ∉ p := fun hh => h (List.mem_cons_of_mem c hh)
    simp [jsSplit, hc, ih rest hp]

/-- `upToSemi` on a semicolon-free part followed by `';'` yields that
part. -/
theorem upToSemi_append :
    ∀ m rest : List Char, ';' ∉ m → upToSemi (m ++ ';' :: rest) = some m := by
  intro m
  induction m with
  | nil => intro rest _; simp [upToSemi]
  | cons c l ih =>
    intro rest h
    have hc : ¬ c = ';' := by
      intro hh; apply h; rw [hh]; exact List.mem_cons_self ';' l
    have hl : ';' ∉ l := fun hh => h (List.mem_cons_of_mem c hh)
    simp [upToSemi, hc, ih rest hl]

/-- A head character other than `':'` is skipped by the regex scan. -/
theorem matchColonSemi_cons_ne (c : Char) (l : List Char) (hc : c ≠ ':') :
    matchColonSemi (c :: l) = matchColonSemi l := by
  simp [matchColonSemi, hc]

/-- At a `':'` whose tail contains a `';'`, the regex captures the text up
to that first `';'`. -/
theorem matchColonSemi_cons_colon (l g : List Char) (hg : upToSemi l = some g) :
    matchColonSemi (':' :: l) = some g := by
  simp [matchColonSemi, hg]

/-- The regex `/:(.*?);/` on a header of the shape
`data:<m>;<rest>` with `';' ∉ m` captures exactly `m`. -/
theorem matchColonSemi_header (m rest : List Char) (hm : ';' ∉ m) :
    matchColonSemi ('d' :: 'a' :: 't' :: 'a' :: ':' :: (m ++ ';' :: rest)) = some m := by
  rw [matchColonSemi_cons_ne 'd' _ (by decide), matchColonSemi_cons_ne 'a' _ (by decide),
    matchColonSemi_cons_ne 't' _ (by decide), matchColonSemi_cons_ne 'a' _ (by decide),
    matchColonSemi_cons_colon _ m (upToSemi_append m rest hm)]

/-- `fileToData` on a string with a comma-free header and comma-free
payload: the payload is everything after the first comma, the MIME type is
derived from the header, the `dataUrl` is the whole string. -/
theorem fileToData_split (header payload : List Char)
    (hh : ',' ∉ header) (hp : ',' ∉ payload) :
    fileToData (header ++ ',' :: payload) =
      ⟨some payload, fileMime header, header ++ ',' :: payload⟩ := by
  simp only [fileToData]
  rw [jsSplit_append ',' header payload hh, jsSplit_not_mem ',' payload hp]
  simp

/-- `extractFirstInline` returns the first part that carries inline data,
skipping any preceding parts without it. -/
theorem extractFirstInline_append (pre post : List Part) (p : Part) (d : InlineData)
    (hpre : ∀ q ∈ pre, q.inlineData = none) (hd : p.inlineData = some d) :
    extractFirstInline (pre ++ p :: post) = some d := by
  induction pre with
  | nil => simp [extractFirstInline, hd]
  | cons q rest ih =>
    have hq : q.inlineData = none := hpre q (List.mem_cons_self q rest)
    have hrest : ∀ q₂ ∈ rest, q₂.inlineData = none :=
      fun q₂ hq₂ => hpre q₂ (List.mem_cons_of_mem q hq₂)
    simp [extractFirstInline, hq, ih hrest]

/-! ## Concrete fixtures used by witnesses and counterexamples -/

/-- A response whose single candidate has one text-only part and no
inline image data. -/
def respNoImage : Response :=
  ⟨some [⟨some ⟨some [⟨none, some "no image".data⟩]⟩⟩]⟩

/-- A response whose single candidate has a text-only part followed by an
inline webp image part (spec test 5). -/
def respWebp : Response :=
  ⟨some [⟨some ⟨some [⟨none, some "no image".data⟩,
                      ⟨some ⟨"Y".data, "image/webp".data⟩, none⟩]⟩⟩]⟩

/-- A file whose read fails with an error object carrying no `message`. -/
def failFile : File := ⟨Except.error none⟩

/-- A file whose read succeeds with a well-formed png data URL. -/
def okFile : File := ⟨Except.ok "data:image/png;base64,QQ==".data⟩

/-- A controller state holding a previous result and a previous error. -/
def staleState : AppState :=
  ⟨some okFile, some "old-preview".data, "make it blue".data,
   some "G".data, false, some "old error".data⟩

/-! ## Claim theorems -/

/-- C1, counterexample: on a response with no inline image part,
`editImageWithPrompt` surfaces the generic failure message, not
`"No image data was found in the API response."` — the internal
no-image throw is caught by the service's own `catch` block, so the
surfaced rejection is indistinguishable from the generic failure. -/
theorem noImageResponse_rejects_with_genericMsg :
    (editImageWithPrompt (some "X".data) "image/png".data "p".data
        (fun _ => ApiResult.ok respNoImage)).1 = Except.error genericFailMsg ∧
      genericFailMsg ≠ noImageMsg :=
  ⟨rfl, by decide⟩

/-- C1, amended: when the API responds but no content part of the first
candidate carries inline image data, the `try` body throws the
`"No image data was found in the API response."` error internally, but the
enclosing `catch` replaces it, so `editImageWithPrompt` rejects with the
generic failure message. -/
theorem editImage_noInline_error_generic (b : Option (List Char))
    (m p : List Char) (api : EditRequest → ApiResult) (r : Response)
    (hapi : api (buildRequest b m p) = ApiResult.ok r)
    (hnone : extractFirstInline (responseParts r) = none) :
    tryBody r = Except.error noImageMsg ∧
      (editImageWithPrompt b m p api).1 = Except.error genericFailMsg := by
  constructor
  · simp [tryBody, hnone]
  · simp [editImageWithPrompt, processApi, hapi, tryBody, hnone]

/-- Witness for the amended C1 theorem at a concrete response. -/
theorem editImage_noInline_error_generic_witness :
    tryBody respNoImage = Except.error noImageMsg ∧
      (editImageWithPrompt (some "X".data) "image/jpeg".data "q".data
          (fun _ => ApiResult.ok respNoImage)).1 = Except.error genericFailMsg :=
  editImage_noInline_error_generic (some "X".data) "image/jpeg".data "q".data
    (fun _ => ApiResult.ok respNoImage) respNoImage rfl rfl

/-- C2: when the first candidate's parts list contains an inline-data
part, `editImageWithPrompt` resolves to
`data:<returnedMimeType>;base64,<returnedData>` built from the first such
part in parts-list order, ignoring all preceding parts without inline
data; the MIME type used is the one the response reports. -/
theorem editImage_first_inline_part (b : Option (List Char)) (m p : List Char)
    (api : EditRequest → ApiResult) (r : Response) (pre post : List Part)
    (part : Part) (d : InlineData)
    (hapi : api (buildRequest b m p) = ApiResult.ok r)
    (hparts : responseParts r = pre ++ part :: post)
    (hpre : ∀ q ∈ pre, q.inlineData = none)
    (hd : part.inlineData = some d) :
    (editImageWithPrompt b m p api).1 =
      Except.ok ("data:".data ++ d.mimeType ++ ";base64,".data ++ d.data) := by
  have hext : extractFirstInline (responseParts r) = some d := by
    rw [hparts]; exact extractFirstInline_append pre post part d hpre hd
  simp [editImageWithPrompt, processApi, tryBody, hapi, hext, mkDataUri]

/-- Witness for C2 at the response of spec test 5: a text part followed
by an inline webp part resolves to `data:image/webp;base64,Y`. -/
theorem editImage_first_inline_part_witness :
    (editImageWithPrompt (some "X".data) "image/png".data "add a hat".data
        (fun _ => ApiResult.ok respWebp)).1 =
      Except.ok "data:image/webp;base64,Y".data :=
  editImage_first_inline_part (some "X".data) "image/png".data "add a hat".data
    (fun _ => ApiResult.ok respWebp) respWebp
    [⟨none, some "no image".data⟩] [] ⟨some ⟨"Y".data, "image/webp".data⟩, none⟩
    ⟨"Y".data, "image/webp".data⟩ rfl rfl (by decide) rfl

/-- C3: for a well-formed data URL `data:<m>;base64,<b>` (non-empty MIME
without `';'` or `','`, comma-free payload), `fileToData` returns exactly
that payload, that MIME type, and the whole string as `dataUrl`, so the
`dataUrl` equals `data:<mimeType>;base64,<base64>` built from the returned
fields and re-splitting it recovers them (round-trip). -/
theorem fileToData_roundtrip (m b : List Char) (hm : m ≠ [])
    (hms : ';' ∉ m) (hmc : ',' ∉ m) (hbc : ',' ∉ b) :
    fileToData ("data:".data ++ m ++ ";base64,".data ++ b) =
        ⟨some b, m, "data:".data ++ m ++ ";base64,".data ++ b⟩ ∧
      fileToData (fileToData ("data:".data ++ m ++ ";base64,".data ++ b)).dataUrl =
        fileToData ("data:".data ++ m ++ ";base64,".data ++ b) := by
  have hh : ',' ∉ ("data:".data ++ m ++ ";base64".data) := by
    intro hc
    rcases List.mem_append.1 hc with h | h
    · rcases List.mem_append.1 h with h | h
      · exact absurd h (by decide)
      · exact hmc h
    · exact absurd h (by decide)
  have hd : "data:".data ++ m ++ ";base64,".data ++ b =
      ("data:".data ++ m ++ ";base64".data) ++ ',' :: b := by
    simp only [List.append_assoc]
    rfl
  have hmime : fileMime ("data:".data ++ m ++ ";base64".data) = m := by
    have hmatch : matchColonSemi ("data:".data ++ m ++ ";base64".data) = some m :=
      matchColonSemi_header m "base64".data hms
    simp only [fileMime]
    rw [hmatch]
    simp [hm]
  have hmain : fileToData ("data:".data ++ m ++ ";base64,".data ++ b) =
      ⟨some b, m, "data:".data ++ m ++ ";base64,".data ++ b⟩ := by
    rw [hd, fileToData_split _ _ hh hbc, hmime]
  refine ⟨hmain, ?_⟩
  rw [hmain]
  exact hmain

/-- Witness for C3 at the png data URL `data:image/png;base64,QQ==`. -/
theorem fileToData_roundtrip_witness :
    fileToData "data:image/png;base64,QQ==".data =
        ⟨some "QQ==".data, "image/png".data, "data:image/png;base64,QQ==".data⟩ ∧
      fileToData (fileToData "data:image/png;base64,QQ==".data).dataUrl =
        fileToData "data:image/png;base64,QQ==".data :=
  fileToData_roundtrip "image/png".data "QQ==".data
    (by decide) (by decide) (by decide) (by decide)

/-- C4: with no uploaded file or a whitespace-only prompt,
`handleGenerate` issues zero network calls, sets the error to exactly
`"Please upload an image and enter a prompt."`, and leaves every other
state field unchanged. -/
theorem handleGenerate_validation (s : AppState) (api : EditRequest → ApiResult)
    (h : s.uploadedImageFile = none ∨ jsTrim s.prompt = []) :
    handleGenerate s api = ({ s with error := some validationMsg }, 0) := by
  rcases h with h | h
  · simp [handleGenerate, h]
  · rcases hf : s.uploadedImageFile with _ | f
    · simp [handleGenerate, hf]
    · simp [handleGenerate, hf, h]

/-- Witness for C4: a state with a file but a whitespace-only prompt. -/
theorem handleGenerate_validation_witness :
    handleGenerate ⟨some okFile, none, "  ".data, some "G".data, false, none⟩
        (fun _ => ApiResult.err []) =
      (⟨some okFile, none, "  ".data, some "G".data, false, some validationMsg⟩, 0) :=
  handleGenerate_validation
    ⟨some okFile, none, "  ".data, some "G".data, false, none⟩
    (fun _ => ApiResult.err []) (Or.inr (by decide))

/-- C5: whatever the provider error is, a failed API call makes
`editImageWithPrompt` reject with the fixed generic message — the result
never incorporates the raw provider error text. -/
theorem editImage_api_error_generic (b : Option (List Char))
    (m p e : List Char) (api : EditRequest → ApiResult)
    (hapi : api (buildRequest b m p) = ApiResult.err e) :
    (editImageWithPrompt b m p api).1 = Except.error genericFailMsg := by
  simp [editImageWithPrompt, processApi, hapi]

/-- Witness for C5 at a concrete auth-style provider error. -/
theorem editImage_api_error_generic_witness :
    (editImageWithPrompt (some "X".data) "image/png".data "p".data
        (fun _ => ApiResult.err "401 Unauthorized: API key not valid".data)).1 =
      Except.error genericFailMsg :=
  editImage_api_error_generic (some "X".data) "image/png".data "p".data
    "401 Unauthorized: API key not valid".data
    (fun _ => ApiResult.err "401 Unauthorized: API key not valid".data) rfl

/-- C6, counterexample: selecting a new file whose read fails does not
clear the previously generated image, and sets (rather than clears) the
error — so the claim that a new file always resets result and error, read
failures included, is false. -/
theorem handleFileChange_read_failure_keeps_result :
    (handleFileChange staleState (some failFile)).generatedImage = some "G".data ∧
      (handleFileChange staleState (some failFile)).error = some readFileErrMsg :=
  ⟨rfl, rfl⟩

/-- C6, amended: selecting a new file whose read succeeds stores the file
and its preview and clears the previously generated image and any
previous error; on a read failure the previous result is retained and the
error is set to the read-failure message. -/
theorem handleFileChange_success_resets (s : AppState) (f : File) (result : List Char)
    (h : f.read = Except.ok result) :
    (handleFileChange s (some f)).generatedImage = none ∧
      (handleFileChange s (some f)).error = none ∧
      (handleFileChange s (some f)).uploadedImagePreview =
        some (fileToData result).dataUrl ∧
      (handleFileChange s (some f)).uploadedImageFile = some f := by
  simp [handleFileChange, h]

/-- Witness for the amended C6 theorem at a concrete stale state. -/
theorem handleFileChange_success_resets_witness :
    (handleFileChange staleState (some okFile)).generatedImage = none ∧
      (handleFileChange staleState (some okFile)).error = none ∧
      (handleFileChange staleState (some okFile)).uploadedImagePreview =
        some (fileToData "data:image/png;base64,QQ==".data).dataUrl ∧
      (handleFileChange staleState (some okFile)).uploadedImageFile = some okFile :=
  handleFileChange_success_resets staleState okFile
    "data:image/png;base64,QQ==".data rfl

/-- C7: when the header has no recognizable `:...;` segment, `fileToData`
defaults the MIME type to `application/octet-stream` while still returning
the payload after the first comma as `base64` and the whole encoded string
as `dataUrl`. -/
theorem fileToData_no_mime_defaults (header payload : List Char)
    (hh : ',' ∉ header) (hp : ',' ∉ payload)
    (hnm : matchColonSemi header = none) :
    fileToData (header ++ ',' :: payload) =
      ⟨some payload, octetStream, header ++ ',' :: payload⟩ := by
  rw [fileToData_split header payload hh hp]
  simp [fileMime, hnm]

/-- Witness for C7 at the malformed encoded string `xyz,AAAA`. -/
theorem fileToData_no_mime_defaults_witness :
    fileToData "xyz,AAAA".data =
      ⟨some "AAAA".data, octetStream, "xyz,AAAA".data⟩ :=
  fileToData_no_mime_defaults "xyz".data "AAAA".data
    (by decide) (by decide) (by decide)

/-- C8: `editImageWithPrompt` issues exactly one network call per
invocation, and its result is a function of the built request's response
alone — two oracles answering the built request identically yield
identical results (the embedding is pure, so the inputs are never
mutated). -/
theorem editImage_single_call_deterministic (b : Option (List Char))
    (m p : List Char) (api api₂ : EditRequest → ApiResult) :
    (editImageWithPrompt b m p api).2 = 1 ∧
      (api (buildRequest b m p) = api₂ (buildRequest b m p) →
        (editImageWithPrompt b m p api).1 = (editImageWithPrompt b m p api₂).1) :=
  ⟨rfl, fun h => by simp [editImageWithPrompt, h]⟩

/-- Witness for C8 at concrete inputs and oracles. -/
theorem editImage_single_call_deterministic_witness :
    (editImageWithPrompt (some "X".data) "image/png".data "p".data
        (fun _ => ApiResult.ok respWebp)).2 = 1 ∧
      (editImageWithPrompt (some "X".data) "image/png".data "p".data
          (fun _ => ApiResult.ok respWebp)).1 =
        (editImageWithPrompt (some "X".data) "image/png".data "p".data
            (fun _ => ApiResult.ok respWebp)).1 :=
  ⟨(editImage_single_call_deterministic (some "X".data) "image/png".data "p".data
      (fun _ => ApiResult.ok respWebp) (fun _ => ApiResult.ok respWebp)).1,
   (editImage_single_call_deterministic (some "X".data) "image/png".data "p".data
      (fun _ => ApiResult.ok respWebp) (fun _ => ApiResult.ok respWebp)).2 rfl⟩

/-- C9: the dispatch of a valid generate clears the previous result and
error and raises the loading flag (so nothing stale is visible while
Loading), and whenever a valid generate ends with an error set, the final
state's generated image is `none` — the prior result is discarded even
when the new attempt fails. -/
theorem handleGenerate_dispatch_clears :
    (∀ s : AppState, (dispatchState s).generatedImage = none ∧
        (dispatchState s).error = none ∧ (dispatchState s).isLoading = true) ∧
      ∀ (s : AppState) (api : EditRequest → ApiResult) (file : File),
        s.uploadedImageFile = some file → jsTrim s.prompt ≠ [] →
          (handleGenerate s api).1.error ≠ none →
            (handleGenerate s api).1.generatedImage = none := by
  constructor
  · intro s; exact ⟨rfl, rfl, rfl⟩
  · intro s api file hf hp
    rcases hr : file.read with m | result
    · intro _
      simp [handleGenerate, hf, hp, hr, dispatchState]
    · rcases h2 : processApi (api (buildRequest (fileToData result).base64
          (fileToData result).mimeType s.prompt)) with msg | v
      · intro _
        simp [handleGenerate, hf, hp, hr, editImageWithPrompt, h2, dispatchState]
      · intro herr
        exfalso
        apply herr
        simp [handleGenerate, hf, hp, hr, editImageWithPrompt, h2, dispatchState]

/-- Witness for C9: a state with a stale result and error dispatching a
generate whose API call fails. -/
theorem handleGenerate_dispatch_clears_witness :
    ((dispatchState staleState).generatedImage = none ∧
        (dispatchState staleState).error = none ∧
        (dispatchState staleState).isLoading = true) ∧
      (handleGenerate staleState (fun _ => ApiResult.err [])).1.generatedImage = none :=
  ⟨handleGenerate_dispatch_clears.1 staleState,
   handleGenerate_dispatch_clears.2 staleState (fun _ => ApiResult.err []) okFile
     rfl (by decide) (by decide)⟩

/-- C10: a header whose `:(.*?);` match captures the empty string (such as
`data:;base64`) also falls back to `application/octet-stream`, and
consequently the MIME type `fileToData` returns is non-empty for every
input. -/
theorem fileToData_empty_mime_defaults :
    (∀ s : List Char, matchColonSemi ((jsSplit ',' s).headD []) = some [] →
        (fileToData s).mimeType = octetStream) ∧
      ∀ s : List Char, (fileToData s).mimeType ≠ [] := by
  constructor
  · intro s h
    show fileMime ((jsSplit ',' s).headD []) = octetStream
    simp only [fileMime]
    rw [h]
    decide
  · intro s
    show fileMime ((jsSplit ',' s).headD []) ≠ []
    simp only [fileMime]
    rcases h : matchColonSemi ((jsSplit ',' s).headD []) with _ | g
    · decide
    · by_cases hg : g = []
      · rw [hg]; decide
      · show (if g = [] then octetStream else g) ≠ []
        rw [if_neg hg]
        exact hg

/-- Witness for C10 at the data URL `data:;base64,QQ` with empty declared
MIME type. -/
theorem fileToData_empty_mime_defaults_witness :
    (fileToData "data:;base64,QQ".data).mimeType = octetStream ∧
      (fileToData "data:;base64,QQ".data).mimeType ≠ [] :=
  ⟨fileToData_empty_mime_defaults.1 "data:;base64,QQ".data rfl,
   fileToData_empty_mime_defaults.2 "data:;base64,QQ".data⟩

end ImageEditor
